import Mathlib

/-!
Verification of the audio ingestion and range-streaming subsystem of the
muwahhidaudio backend (src/backend/app/utils/audio.py,
src/backend/app/utils/waveform.py, src/backend/app/utils/audio_processing.py,
src/backend/app/api/lessons.py).

Strings from the Python source are embedded as `List Char` where they are
parsed character by character, and as `String` where they are only built and
compared.  Python exceptions are embedded as an explicit error type carried in
`Except`.  Machine integers are `Int`/`Nat` (Python integers are unbounded, so
no overflow modelling is needed).  Filesystems are embedded as the list of
paths of the files that exist.
-/

/-- Python exception values, as far as the embedded code distinguishes them. -/
inductive PyExc where
  /-- An HTTPException carrying a status code and detail string. -/
  | httpException (statusCode : Int) (detail : String)
  /-- An AttributeError, e.g. calling a string method on an int. -/
  | attributeError
  /-- A TypeError, e.g. multiplying a list by None. -/
  | typeError
  /-- A generic Exception raised by the audio-processing helpers. -/
  | exc (msg : String)
deriving DecidableEq, Repr

/-- Python str(e) for the embedded exceptions.  For `starlette.HTTPException`
this is the status code, a colon and a space, then the detail. -/
def pyStrExc : PyExc → String
  | PyExc.httpException code detail => toString code ++ ": " ++ detail
  | PyExc.attributeError => "AttributeError"
  | PyExc.typeError => "TypeError"
  | PyExc.exc msg => msg

/-! ## src/backend/app/utils/audio.py -/

/-- Value of a nonempty string of ASCII decimal digits (most significant
first), `none` otherwise. -/
def digitsVal (cs : List Char) : Option Nat :=
  if cs = [] then Option.none
  else if cs.all (fun c => c.isDigit) then
    some (cs.foldl (fun acc c => acc * 10 + (c.toNat - 48)) 0)
  else Option.none

/-- Model of Python `int(s)` on a string: an optional sign followed by
decimal digits.  (Python additionally strips surrounding whitespace and
allows underscores between digits; those forms never occur in the claims and
would in any case be validated downstream exactly like these.) -/
def pyInt (cs : List Char) : Option Int :=
  match cs with
  | [] => Option.none
  | c :: rest =>
    if c = '-' then (digitsVal rest).map (fun n => -(n : Int))
    else if c = '+' then (digitsVal rest).map (fun n => (n : Int))
    else (digitsVal (c :: rest)).map (fun n => (n : Int))

/-- Model of range_spec.split("-", 1) for a spec known to contain a dash:
the characters before the first dash and the characters after it. -/
def splitFirstDash : List Char → List Char × List Char
  | [] => ([], [])
  | c :: rest =>
    if c = '-' then ([], rest)
    else
      let p := splitFirstDash rest
      (c :: p.1, p.2)

/-- The `start`/`end` extraction of `parse_range_header` (the three accepted
forms), before validation.  `p0`/`p1` are the two halves of the range spec. -/
def rawRange (p0 p1 : List Char) (fileSize : Int) : Option (Int × Int) :=
  match p0, p1 with
  | _ :: _, _ :: _ =>
    -- Case 1: "bytes=start-end"
    match pyInt p0, pyInt p1 with
    | some s, some e => some (s, e)
    | _, _ => Option.none
  | _ :: _, [] =>
    -- Case 2: "bytes=start-" (from start to end of file)
    match pyInt p0 with
    | some s => some (s, fileSize - 1)
    | Option.none => Option.none
  | [], _ :: _ =>
    -- Case 3: "bytes=-end" (last N bytes)
    match pyInt p1 with
    | some n => some (fileSize - n, fileSize - 1)
    | Option.none => Option.none
  | [], [] => Option.none

/-- The validation/clamping tail of `parse_range_header`: reject when
`start < 0` or `start >= file_size`; clamp `end` to `file_size - 1` when
`end < start` or `end >= file_size`. -/
def validateRange (fileSize : Int) : Option (Int × Int) → Option (Int × Int)
  | Option.none => Option.none
  | some (s, e) =>
    if s < 0 ∨ s ≥ fileSize then Option.none
    else some (s, if e < s ∨ e ≥ fileSize then fileSize - 1 else e)

/-- Embedding of parse_range_header(range_header, file_size): parse an HTTP `Range`
header against the total file size, returning `(start_byte, end_byte)` or
`none` if invalid. -/
def parse_range_header (rangeHeader : List Char) (fileSize : Int) : Option (Int × Int) :=
  if "bytes=".toList.isPrefixOf rangeHeader then
    let rangeSpec := rangeHeader.drop 6
    if rangeSpec.contains '-' then
      let parts := splitFirstDash rangeSpec
      validateRange fileSize (rawRange parts.1 parts.2 fileSize)
    else Option.none
  else Option.none

/-- Embedding of get_content_range_header(start, end, total):
the string "bytes ", start, a dash, end, a slash, total. -/
def get_content_range_header (startB endB total : Int) : String :=
  "bytes " ++ toString startB ++ "-" ++ toString endB ++ "/" ++ toString total

/-- Embedding of get_chunk_size(): 64 KiB streaming chunks. -/
def get_chunk_size : Nat := 64 * 1024

/-! ## src/backend/app/api/lessons.py — stream_audio -/

/-- One `f.read(n)` on a file whose bytes are `content`, with the cursor at
`pos`: the next `min n (content.length - pos)` bytes. -/
def fileRead (content : List Nat) (pos n : Nat) : List Nat :=
  (content.drop pos).take n

/-- The generator `iterfile_partial` of `stream_audio`: after `f.seek(start)`
the loop reads `min chunk_size remaining` bytes at a time, stops early on an
empty read, and otherwise decrements `remaining` by the bytes read.  The
result is the list of yielded chunks. -/
def iterfileRanged (content : List Nat) (pos remaining : Nat) : List (List Nat) :=
  if remaining = 0 then []
  else
    let chunk := fileRead content pos (min get_chunk_size remaining)
    if h : chunk.length = 0 then []
    else chunk :: iterfileRanged content (pos + chunk.length) (remaining - chunk.length)
termination_by remaining
decreasing_by
  have hc : (fileRead content pos (min get_chunk_size remaining)).length ≤ remaining := by
    simp only [fileRead, List.length_take, List.length_drop]
    omega
  have h2 : (fileRead content pos (min get_chunk_size remaining)).length ≠ 0 := h
  omega

/-- The generator `iterfile` of the no-`Range` branch of `stream_audio`:
read `chunk_size` bytes at a time from the start until an empty read. -/
def iterfileAll (content : List Nat) (pos : Nat) : List (List Nat) :=
  let chunk := fileRead content pos get_chunk_size
  if h : chunk.length = 0 then []
  else chunk :: iterfileAll content (pos + chunk.length)
termination_by content.length - pos
decreasing_by
  have hc : (fileRead content pos get_chunk_size).length ≤ content.length - pos := by
    simp only [fileRead, List.length_take, List.length_drop]
    omega
  have h2 : (fileRead content pos get_chunk_size).length ≠ 0 := h
  omega

/-- The observable parts of a `StreamingResponse` built by `stream_audio`:
status code, the `Accept-Ranges`/`Content-Length`/`Content-Range` headers and
the streamed body chunks. -/
structure StreamResponse where
  status : Nat
  acceptRanges : String
  contentLength : Nat
  contentRange : Option String
  body : List (List Nat)
deriving DecidableEq, Repr

/-- The `206 Partial Content` response `stream_audio` builds once
`parse_range_header` has returned `(start, end)` (streaming
`iterfile_partial`, headers from `get_content_range_header`). -/
def streamAudioRangeResponse (content : List Nat) (startB endB : Nat) : StreamResponse :=
  { status := 206
    acceptRanges := "bytes"
    contentLength := endB - startB + 1
    contentRange :=
      some (get_content_range_header (startB : Int) (endB : Int) (content.length : Int))
    body := iterfileRanged content startB (endB - startB + 1) }

/-- The `200 OK` response of the no-`Range` branch of `stream_audio`. -/
def streamAudioFullResponse (content : List Nat) : StreamResponse :=
  { status := 200
    acceptRanges := "bytes"
    contentLength := content.length
    contentRange := Option.none
    body := iterfileAll content 0 }

/-- A value in the dynamically-typed positional arguments of
`get_audio_file_path` (its signature is
`get_audio_file_path(audio_path: Optional[str], lesson_id: Optional[int],
audio_dir: str = "audio_files")`, but `stream_audio` passes the integer
`lesson_id` as the first positional argument). -/
inductive PyVal where
  | vNone
  | vStr (s : String)
  | vInt (n : Int)
deriving DecidableEq, Repr

/-- Python truthiness of the embedded values. -/
def pyTruthy : PyVal → Bool
  | PyVal.vNone => false
  | PyVal.vStr s => s ≠ ""
  | PyVal.vInt n => n ≠ 0

/-- F-string conversion of the embedded values. -/
def pyFormatVal : PyVal → String
  | PyVal.vNone => "None"
  | PyVal.vStr s => s
  | PyVal.vInt n => toString n

/-- The lesson_<id>.mp3 fallback half of `get_audio_file_path`. -/
def lessonIdFallback (lessonId : PyVal) (fs : List String) : Option String :=
  if pyTruthy lessonId then
    if ("audio_files/" ++ ("lesson_" ++ pyFormatVal lessonId ++ ".mp3")) ∈ fs then
      some ("audio_files/" ++ ("lesson_" ++ pyFormatVal lessonId ++ ".mp3"))
    else Option.none
  else Option.none

/-- Embedding of get_audio_file_path(audio_path, lesson_id) over a filesystem `fs` (the
list of existing paths).  When `audio_path` is truthy the code immediately
calls audio_path.startswith("audio_files/"), which raises
`AttributeError` when the value is not a string. -/
def get_audio_file_path (audioPath lessonId : PyVal) (fs : List String) :
    Except PyExc (Option String) :=
  if pyTruthy audioPath then
    match audioPath with
    | PyVal.vStr s =>
      let filePath := if s.startsWith "audio_files/" then s else "audio_files/" ++ s
      if filePath ∈ fs then Except.ok (some filePath)
      else Except.ok (lessonIdFallback lessonId fs)
    | _ => Except.error PyExc.attributeError
  else Except.ok (lessonIdFallback lessonId fs)

/-- The endpoint GET /lessons/<id>/audio.  `lessonFound` is the
outcome of the lesson lookup, `content` the bytes of the audio file of the
lesson
(used once a path is found), `rangeHeader` the optional `Range` header.
The source passes `lesson_id` — an `int` — as the `audio_path` argument of
`get_audio_file_path`. -/
def stream_audio (lessonFound : Bool) (lessonId : Int) (fs : List String)
    (content : List Nat) (rangeHeader : Option (List Char)) :
    Except PyExc StreamResponse :=
  if ¬ lessonFound then Except.error (PyExc.httpException 404 "Lesson not found")
  else
    match get_audio_file_path (PyVal.vInt lessonId) PyVal.vNone fs with
    | Except.error e => Except.error e
    | Except.ok Option.none => Except.error (PyExc.httpException 404 "Audio file not found")
    | Except.ok (some _) =>
      match rangeHeader with
      | Option.none => Except.ok (streamAudioFullResponse content)
      | some rh =>
        match parse_range_header rh (content.length : Int) with
        | Option.none =>
          Except.error (PyExc.httpException 416 "Invalid range")
        | some (s, e) => Except.ok (streamAudioRangeResponse content s.toNat e.toNat)

/-! ## src/backend/app/utils/waveform.py

The decoded audio is embedded as its pydub observables: `len(audio)` in
milliseconds and the mono PCM samples of `audio.get_array_of_samples()`
(the `set_channels(1)` down-mix of a multi-channel file is folded into the
decoded data, which the claims never distinguish).  The float arithmetic of
the source (numpy 64-bit floats) is embedded exactly: the RMS of each chunk,
`sqrt(mean(chunk**2))` is represented by the pair
`(sum of squares, chunk length)`, and the final
`int(rms / max_rms * max_amplitude)` is computed as the exact floor of that
real value via `Nat.sqrt`. -/

/-- A decoded audio segment: duration in milliseconds and mono PCM samples. -/
structure AudioSeg where
  lenMs : Nat
  data : List Int
deriving DecidableEq, Repr

/-- Embedding of sum(x*x for x in chunk): the numerator of the mean of squares. -/
def sumSq (chunk : List Int) : Nat :=
  chunk.foldl (fun acc x => acc + x.natAbs ^ 2) 0

/-- Exact value of `int(amp * sqrt((a / b) / (c / d)))` for nonnegative
rationals given as numerator/denominator pairs with `b, c, d > 0`:
`amp * sqrt(ad/(bc)) = sqrt(amp^2*ad*bc)/(bc)`, whose floor is
`Nat.sqrt (amp^2*a*d*b*c) / (b*c)`. -/
def floorAmpSqrtRatio (amp a b c d : Nat) : Nat :=
  Nat.sqrt (amp ^ 2 * a * d * (b * c)) / (b * c)

/-- One comparison step of Python `max` over RMS values represented as
(sum-of-squares, length) pairs: `sqrt(a1/b1) < sqrt(a2/b2)` iff
`a1 * b2 < a2 * b1` (lengths positive); on ties `max` keeps the earlier
element. -/
def pickMax (m p : Nat × Nat) : Nat × Nat :=
  if m.1 * p.2 < p.1 * m.2 then p else m

/-- Python `max(rms_values)`, `none` on an empty list. -/
def pyMaxRms : List (Nat × Nat) → Option (Nat × Nat)
  | [] => Option.none
  | h :: t => some (t.foldl pickMax h)

/-- The real RMS value represented by a (sum-of-squares, length) pair is
`sqrt(p.1 / p.2)`; comparisons of RMS values are comparisons of the
rational `p.1 / p.2`. -/
def rmsVal (p : Nat × Nat) : ℚ :=
  (p.1 : ℚ) / p.2

/-- The number of output points: the `samples` argument if supplied,
otherwise `max(10, int(duration_seconds * points_per_second))` with
`duration_seconds = len(audio) / 1000.0` (`int` truncates). -/
def requestedCount (audio : AudioSeg) (samplesArg : Option Int) (pps : Nat) : Int :=
  match samplesArg with
  | some n => n
  | Option.none => max 10 ((audio.lenMs * pps / 1000 : Nat) : Int)

/-- Embedding of chunk_size, the floor of len(samples_data) over samples,
bumped to 1 when zero. -/
def waveChunkSize (dataLen s : Nat) : Nat :=
  if dataLen / s = 0 then 1 else dataLen / s

/-- The first pass of `generate_waveform`: for `i in range(samples)`, stop at
the first `i` with `start = i * chunk_size >= len(samples_data)` (the
break statement), and record the RMS of each chunk as its
(sum-of-squares, length) pair;
the chunk is `samples_data[start : min (start+chunk_size) len]`. -/
def rmsPairs (data : List Int) (s : Nat) : List (Nat × Nat) :=
  ((List.range s).takeWhile (fun i => i * waveChunkSize data.length s < data.length)).map
    (fun i =>
      (sumSq ((data.drop (i * waveChunkSize data.length s)).take (waveChunkSize data.length s)),
       ((data.drop (i * waveChunkSize data.length s)).take (waveChunkSize data.length s)).length))

/-- The `max_rms` used in the second pass: `max(rms_values)` if the list is
nonempty else `1.0`, replaced by `1.0` when it equals zero. -/
def maxRmsPair (pairs : List (Nat × Nat)) : Nat × Nat :=
  match pyMaxRms pairs with
  | Option.none => (1, 1)
  | some m => if m.1 = 0 then (1, 1) else m

/-- The second pass: `normalized = int(rms / max_rms * max_amplitude)`
clamped by `max(1, min(max_amplitude, normalized))`. -/
def normalizeRms (maxAmp : Nat) (M p : Nat × Nat) : Nat :=
  max 1 (min maxAmp (floorAmpSqrtRatio maxAmp p.1 p.2 M.1 M.2))

/-- The waveform produced on the successful path of `generate_waveform`:
both passes over the chunk RMS list. -/
def waveformOut (audio : AudioSeg) (samplesArg : Option Int) (maxAmp pps : Nat) : List Nat :=
  (rmsPairs audio.data (requestedCount audio samplesArg pps).toNat).map
    (normalizeRms maxAmp
      (maxRmsPair (rmsPairs audio.data (requestedCount audio samplesArg pps).toNat)))

/-- Embedding of generate_waveform(audio_path, samples, max_amplitude,
points_per_second).
`audio = none` embeds a decode failure of `AudioSegment.from_file`; it is
handled by the `except` block `return [50] * samples`, which raises
`TypeError` when `samples` is still `None`.  `samples = 0` makes
`len(samples_data) // samples` raise `ZeroDivisionError`, which the same
`except` block turns into `[50] * 0 = []`. -/
def generate_waveform (audio : Option AudioSeg) (samplesArg : Option Int)
    (maxAmp : Nat) (pps : Nat) : Except PyExc (List Nat) :=
  match audio with
  | Option.none =>
    match samplesArg with
    | some n => Except.ok (List.replicate n.toNat 50)
    | Option.none => Except.error PyExc.typeError
  | some audio =>
    if requestedCount audio samplesArg pps = 0 then Except.ok []
    else Except.ok (waveformOut audio samplesArg maxAmp pps)

/-! ## src/backend/app/utils/audio_processing.py -/

/-- The AUDIO_BASE_DIR constant, Path("/app/audio_files"). -/
def audioBaseDir : String := "/app/audio_files"

/-- An unlink guarded by an existence check: removing an absent path is a
no-op. -/
def removeFile (fs : List String) (p : String) : List String :=
  fs.filter (fun q => q ≠ p)

/-- Writing a file (`shutil.copy2` / a successful `ffmpeg` run): overwrites
by path. -/
def addFile (fs : List String) (p : String) : List String :=
  if p ∈ fs then fs else p :: fs

/-- The final path component (after the last slash), as `PurePath.name`. -/
def lastComponent (cs : List Char) : List Char :=
  cs.foldl (fun acc c => if c = '/' then [] else acc ++ [c]) []

/-- The index of the last dot of a name, when it has one
(the rfind of the dot character). -/
def rfindDot (cs : List Char) : Option Nat :=
  if cs.reverse.findIdx (fun c => c = '.') < cs.length then
    some (cs.length - 1 - cs.reverse.findIdx (fun c => c = '.'))
  else Option.none

/-- Model of PurePath.stem: the name up to its last dot when that dot is neither
the first nor the last character, otherwise the whole name. -/
def pathStem (name : List Char) : List Char :=
  match rfindDot name with
  | some i => if 0 < i ∧ i < name.length - 1 then name.take i else name
  | Option.none => name

/-- Model of PurePath.suffix: the part of the name from its last dot when that dot
is neither the first nor the last character, otherwise empty. -/
def pathSuffix (name : List Char) : List Char :=
  match rfindDot name with
  | some i => if 0 < i ∧ i < name.length - 1 then name.drop i else []
  | Option.none => []

/-- The sanitized stem of `process_audio_file`: keep the alphanumerics and
`"._- "` of the stem of the original filename, then replace spaces with
underscores.  (Python `isalnum` is unicode-aware; the ASCII
`Char.isAlphanum` agrees on it over ASCII filenames, and no claim depends
on non-ASCII names.) -/
def sanitizeStem (originalFilename : String) : String :=
  String.mk (((pathStem (lastComponent originalFilename.toList)).filter
    (fun c => c.isAlphanum || c = '.' || c = '_' || c = '-' || c = ' ')).map
    (fun c => if c = ' ' then '_' else c))

/-- The original extension: Path(original_filename).suffix or ".unknown". -/
def originalExt (originalFilename : String) : String :=
  if pathSuffix (lastComponent originalFilename.toList) = [] then ".unknown"
  else String.mk (pathSuffix (lastComponent originalFilename.toList))

/-- The absolute target path ORIGINAL_DIR / original_filename_safe. -/
def originalFullPath (originalFilename : String) : String :=
  audioBaseDir ++ "/original/" ++ sanitizeStem originalFilename ++ originalExt originalFilename

/-- The absolute target path PROCESSED_DIR / processed_filename_safe
(extension forced to
`.mp3`). -/
def processedFullPath (originalFilename : String) : String :=
  audioBaseDir ++ "/processed/" ++ sanitizeStem originalFilename ++ ".mp3"

/-- The relative original path returned on success. -/
def originalRelPath (originalFilename : String) : String :=
  "original/" ++ sanitizeStem originalFilename ++ originalExt originalFilename

/-- The relative processed path returned on success. -/
def processedRelPath (originalFilename : String) : String :=
  "processed/" ++ sanitizeStem originalFilename ++ ".mp3"

/-- Result of `process_audio_file`: the returned triple or the re-raised
exception, together with the filesystem afterwards. -/
structure ProcessResult where
  result : Except PyExc (String × String × Nat)
  fs : List String
deriving Repr

/-- Embedding of process_audio_file(input_file_path, original_filename) over a
filesystem.  The external `ffmpeg`/`ffprobe` invocations are oracles:
`convertOk` is whether `convert_to_mp3_mono` exits zero, `partlyWritten`
whether a failing run still left an output file behind, and `probeOut` the
probed duration (`none` embeds a `get_audio_duration` failure).  The
original upload is copied in first; on success of both steps the relative
paths and duration are returned; on either failure the `except` block
unlinks whatever exists of the two target files and re-raises. -/
def process_audio_file (fs : List String) (originalFilename : String)
    (convertOk : Bool) (partlyWritten : Bool) (probeOut : Option Nat) : ProcessResult :=
  let fs1 := addFile fs (originalFullPath originalFilename)
  if convertOk then
    let fs2 := addFile fs1 (processedFullPath originalFilename)
    match probeOut with
    | some duration =>
      { result := Except.ok (originalRelPath originalFilename,
          processedRelPath originalFilename, duration)
        fs := fs2 }
    | Option.none =>
      { result := Except.error (PyExc.exc "Failed to get audio duration")
        fs := removeFile (removeFile fs2 (originalFullPath originalFilename))
          (processedFullPath originalFilename) }
  else
    let fs2 := if partlyWritten then addFile fs1 (processedFullPath originalFilename) else fs1
    { result := Except.error (PyExc.exc "Audio conversion failed")
      fs := removeFile (removeFile fs2 (originalFullPath originalFilename))
        (processedFullPath originalFilename) }

/-- Python truthiness of `Optional[str]` (empty strings are falsy). -/
def optTruthy : Option String → Bool
  | Option.none => false
  | some s => s ≠ ""

/-- Embedding of delete_audio_files(original_path, processed_path): for each truthy
path, unlink `AUDIO_BASE_DIR / path` if it exists. -/
def delete_audio_files (fs : List String) (originalPath processedPath : Option String) :
    List String :=
  let fs1 := match originalPath with
    | some p => if p ≠ "" then removeFile fs (audioBaseDir ++ "/" ++ p) else fs
    | Option.none => fs
  match processedPath with
  | some p => if p ≠ "" then removeFile fs1 (audioBaseDir ++ "/" ++ p) else fs1
  | Option.none => fs1

/-! ## src/backend/app/api/lessons.py — upload_lesson_audio -/

/-- The MAX_FILE_SIZE cap, 200 * 1024 * 1024 bytes. -/
def maxFileSize : Nat := 200 * 1024 * 1024

/-- The 1 MiB chunk size of the upload receive loop. -/
def uploadChunkSize : Nat := 1024 * 1024

/-- State after the receive loop: its outcome, the cumulative bytes read
from the stream (`file_size`), the bytes written to the temp file, and
whether the temp file has been removed. -/
structure RecvState where
  outcome : Except PyExc Unit
  fileSize : Nat
  written : Nat
  tempRemoved : Bool
deriving Repr

/-- The receive loop of `upload_lesson_audio`: read up to 1 MiB at a time
(`min uploadChunkSize remaining` bytes arrive while the payload lasts), stop
on an empty read, add each chunk to `file_size` and — before writing it —
abort with `HTTPException(413)` and unlink the temp file as soon as
`file_size` crosses the cap.  The structural `fuel` only bounds the
recursion: every call keeps `fuel ≥ remaining`, which each iteration
preserves because it consumes at least one byte. -/
def recvLoop : Nat → Nat → Nat → Nat → RecvState
  | 0, _, fileSize, written =>
    { outcome := Except.ok (), fileSize := fileSize, written := written,
      tempRemoved := false }
  | fuel + 1, remaining, fileSize, written =>
    if min uploadChunkSize remaining = 0 then
      { outcome := Except.ok (), fileSize := fileSize, written := written,
        tempRemoved := false }
    else
      if fileSize + min uploadChunkSize remaining > maxFileSize then
        { outcome := Except.error (PyExc.httpException 413
            "File too large. Maximum size is 200 MB")
          fileSize := fileSize + min uploadChunkSize remaining
          written := written
          tempRemoved := true }
      else
        recvLoop fuel (remaining - min uploadChunkSize remaining)
          (fileSize + min uploadChunkSize remaining)
          (written + min uploadChunkSize remaining)

/-- The receive phase wrapped in its `except Exception` handler: any raised
exception — the 413 `HTTPException` included, since `HTTPException` is an
`Exception` — is caught, the temp file is unlinked if it still exists, and
HTTPException(500, "Error uploading file: " + str(e)) is raised instead. -/
def recvUpload (total : Nat) : RecvState :=
  let r := recvLoop total total 0 0
  match r.outcome with
  | Except.ok _ => r
  | Except.error e =>
    { r with
      outcome := Except.error (PyExc.httpException 500
        ("Error uploading file: " ++ pyStrExc e))
      tempRemoved := true }

/-- The lesson fields `upload_lesson_audio` reads, the per-request inputs,
and the transcode/probe oracles threaded to `process_audio_file`. -/
structure UploadArgs where
  lessonId : Int
  lessonExists : Bool
  lessonOriginalPath : Option String
  lessonAudioPath : Option String
  filename : String
  totalSize : Nat
  convertOk : Bool
  partlyWritten : Bool
  probeOut : Option Nat
deriving DecidableEq, Repr

/-- The JSON body of a successful upload response. -/
structure UploadOk where
  originalPath : String
  processedPath : String
  durationSeconds : Nat
  lessonId : Int
deriving DecidableEq, Repr

/-- Everything observable about one run of `upload_lesson_audio`. -/
structure UploadResult where
  response : Except PyExc UploadOk
  fs : List String
  tempRemoved : Bool
  bytesRead : Nat
  bytesWritten : Nat
  dbUpdate : Option (String × String × Nat)
deriving Repr

/-- The filesystem on which `process_audio_file` is invoked: the old
artifacts of the lesson are deleted first when it has any
(`if lesson.original_audio_path or lesson.audio_path`). -/
def fsAtTranscode (fs : List String) (a : UploadArgs) : List String :=
  if optTruthy a.lessonOriginalPath || optTruthy a.lessonAudioPath then
    delete_audio_files fs a.lessonOriginalPath a.lessonAudioPath
  else fs

/-- The endpoint POST /lessons/<id>/audio — upload_lesson_audio (after the
admin dependency): 404 when the lesson does not exist; stream the payload to
a temp file under the 200 MiB cap; then delete the old audio files of the
lesson, run `process_audio_file`, update the lesson record, and convert any
processing exception into `HTTPException(500, "Error processing audio:
...")`.  The temp file is removed on every path on which it was created. -/
def upload_lesson_audio (fs : List String) (a : UploadArgs) : UploadResult :=
  if ¬ a.lessonExists then
    { response := Except.error (PyExc.httpException 404 "Lesson not found")
      fs := fs, tempRemoved := true, bytesRead := 0, bytesWritten := 0,
      dbUpdate := Option.none }
  else
    let recv := recvUpload a.totalSize
    match recv.outcome with
    | Except.error e =>
      { response := Except.error e
        fs := fs, tempRemoved := recv.tempRemoved, bytesRead := recv.fileSize,
        bytesWritten := recv.written, dbUpdate := Option.none }
    | Except.ok _ =>
      let pr := process_audio_file (fsAtTranscode fs a) a.filename a.convertOk
        a.partlyWritten a.probeOut
      match pr.result with
      | Except.ok (o, p, d) =>
        { response := Except.ok ⟨o, p, d, a.lessonId⟩
          fs := pr.fs, tempRemoved := true, bytesRead := recv.fileSize,
          bytesWritten := recv.written, dbUpdate := some (o, p, d) }
      | Except.error e =>
        { response := Except.error (PyExc.httpException 500
            ("Error processing audio: " ++ pyStrExc e))
          fs := pr.fs, tempRemoved := true, bytesRead := recv.fileSize,
          bytesWritten := recv.written, dbUpdate := Option.none }

/-- The endpoint PUT /lessons/<id>/audio — replace_lesson_audio: its body is
`return await upload_lesson_audio(lesson_id, audio_file, db,
current_user)`. -/
def replace_lesson_audio (fs : List String) (a : UploadArgs) : UploadResult :=
  upload_lesson_audio fs a

/-! ## Theorems (first batch: the parser) -/

/-- Claim C2: whenever `parse_range_header` returns a range `(start, end)`
rather than a rejection, the interval satisfies
`0 ≤ start ≤ end < file_size`; the parser never produces a partially valid
range. -/
theorem parse_range_header_interval_valid (rangeHeader : List Char) (fileSize s e : Int)
    (h : parse_range_header rangeHeader fileSize = some (s, e)) :
    0 ≤ s ∧ s ≤ e ∧ e < fileSize := by
  unfold parse_range_header at h
  split at h
  · dsimp only at h
    split at h
    · revert h
      generalize rawRange (splitFirstDash (rangeHeader.drop 6)).1
        (splitFirstDash (rangeHeader.drop 6)).2 fileSize = raw
      intro h
      match raw with
      | Option.none => simp [validateRange] at h
      | some (s0, e0) =>
        simp only [validateRange] at h
        split at h
        · simp at h
        · rename_i hval
          rw [Option.some_inj, Prod.mk.injEq] at h
          obtain ⟨hs, he⟩ := h
          subst hs
          split at he <;> omega
    · simp at h
  · simp at h

/-- Witness for C2 at the concrete header `bytes=2-4` against size 10. -/
theorem parse_range_header_interval_valid_witness :
    (0 : Int) ≤ 2 ∧ (2 : Int) ≤ 4 ∧ (4 : Int) < 10 :=
  parse_range_header_interval_valid ("bytes=2-4".toList) 10 2 4 (by decide)

/-- Auxiliary: the chunks yielded by `iterfile_partial` concatenate to the
requested slice whenever the requested window fits inside the file. -/
theorem iterfileRanged_flatten (content : List Nat) :
    ∀ (remaining pos : Nat), pos + remaining ≤ content.length →
      (iterfileRanged content pos remaining).flatten = (content.drop pos).take remaining := by
  intro remaining
  induction remaining using Nat.strong_induction_on with
  | _ remaining ih =>
    intro pos hle
    rw [iterfileRanged]
    split
    · rename_i h0
      subst h0
      simp
    · rename_i h0
      have hcl : (fileRead content pos (min get_chunk_size remaining)).length
          = min get_chunk_size remaining := by
        simp only [fileRead, List.length_take, List.length_drop]
        omega
      have hpos : 0 < get_chunk_size := by decide
      dsimp only
      split
      · rename_i hz
        rw [hcl] at hz
        exfalso
        omega
      · rename_i hz
        rw [List.flatten_cons, hcl]
        rw [ih (remaining - min get_chunk_size remaining) (by omega)
            (pos + min get_chunk_size remaining) (by omega)]
        simp only [fileRead]
        conv_rhs =>
          rw [show remaining
                = min get_chunk_size remaining + (remaining - min get_chunk_size remaining)
              by omega]
          rw [List.take_add]
        congr 1
        rw [List.drop_drop, Nat.add_comm]

/-- Claim C1: for `0 ≤ start ≤ end < size`, the partial-content response has
status 206, `Content-Range` equal to "bytes <start>-<end>/<size>",
`Content-Length` equal to `end - start + 1`, and the concatenation of the
streamed chunks is exactly the source slice from `start` to `end`,
of length `end - start + 1`. -/
theorem range_response_correct (content : List Nat) (startB endB : Nat)
    (h1 : startB ≤ endB) (h2 : endB < content.length) :
    (streamAudioRangeResponse content startB endB).status = 206 ∧
    (streamAudioRangeResponse content startB endB).contentRange =
      some ("bytes " ++ toString (startB : Int) ++ "-" ++ toString (endB : Int) ++ "/"
        ++ toString (content.length : Int)) ∧
    (streamAudioRangeResponse content startB endB).contentLength = endB - startB + 1 ∧
    (streamAudioRangeResponse content startB endB).body.flatten =
      (content.drop startB).take (endB - startB + 1) ∧
    (streamAudioRangeResponse content startB endB).body.flatten.length
      = endB - startB + 1 := by
  have hfl := iterfileRanged_flatten content (endB - startB + 1) startB (by omega)
  refine ⟨rfl, rfl, rfl, hfl, ?_⟩
  have hb : (streamAudioRangeResponse content startB endB).body.flatten
      = (iterfileRanged content startB (endB - startB + 1)).flatten := rfl
  rw [hb, hfl]
  simp only [List.length_take, List.length_drop]
  omega

/-- Witness for C1 on the file `[3, 1, 4, 1, 5]` with range 1-3. -/
theorem range_response_correct_witness :
    (streamAudioRangeResponse [3, 1, 4, 1, 5] 1 3).status = 206 ∧
    (streamAudioRangeResponse [3, 1, 4, 1, 5] 1 3).contentRange =
      some ("bytes " ++ toString (1 : Int) ++ "-" ++ toString (3 : Int) ++ "/"
        ++ toString (([3, 1, 4, 1, 5] : List Nat).length : Int)) ∧
    (streamAudioRangeResponse [3, 1, 4, 1, 5] 1 3).contentLength = 3 - 1 + 1 ∧
    (streamAudioRangeResponse [3, 1, 4, 1, 5] 1 3).body.flatten =
      (([3, 1, 4, 1, 5] : List Nat).drop 1).take (3 - 1 + 1) ∧
    (streamAudioRangeResponse [3, 1, 4, 1, 5] 1 3).body.flatten.length = 3 - 1 + 1 :=
  range_response_correct [3, 1, 4, 1, 5] 1 3 (by decide) (by decide)

/-- Auxiliary: parsing a header of the suffix form `bytes=-<spec>` reduces to
the case-3 extraction followed by validation. -/
theorem parse_range_header_suffix_form (s : List Char) (fileSize : Int) :
    parse_range_header ("bytes=-".toList ++ s) fileSize =
      validateRange fileSize (rawRange [] s fileSize) := by
  have h1 : "bytes=".toList.isPrefixOf ("bytes=-".toList ++ s) = true := by
    have he : ("bytes=-".toList ++ s) = "bytes=".toList ++ ('-' :: s) := rfl
    rw [he, List.isPrefixOf_iff_prefix]
    exact List.prefix_append _ _
  unfold parse_range_header
  rw [if_pos h1]
  have h2 : List.drop 6 ("bytes=-".toList ++ s) = '-' :: s := rfl
  dsimp only
  rw [h2]
  have h3 : (('-' :: s).contains '-') = true := rfl
  rw [if_pos h3]
  have h4 : splitFirstDash ('-' :: s) = ([], s) := rfl
  rw [h4]

/-- Claim C3 counterexample: for size 1, the suffix header `bytes=-2` is
rejected (`start = 1 - 2 < 0`), whereas the claim predicts the last
`min 2 1 = 1` bytes, i.e. the interval `(0, 0)`. -/
theorem suffix_range_counterexample :
    parse_range_header "bytes=-2".toList 1 = Option.none ∧
    ¬ parse_range_header "bytes=-2".toList 1 = some (0, 0) := by
  constructor
  · rfl
  · decide

/-- Claim C3 (amended): for size ≥ 1, `bytes=0-` parses to `[0, size-1]`;
a suffix header `bytes=-N` (with `N` written as a nonempty digit string `s`)
parses to the last `N` bytes `[size-N, size-1]` when `1 ≤ N ≤ size`, and is
rejected — not clamped to the last `min N size` bytes — when `N = 0` or
`N > size`. -/
theorem open_and_suffix_range_forms (size : Int) (N : Nat) (s : List Char)
    (hsize : 1 ≤ size) (hs : s ≠ []) (hd : ∀ c ∈ s, c.isDigit)
    (hv : digitsVal s = some N) :
    parse_range_header "bytes=0-".toList size = some (0, size - 1) ∧
    (1 ≤ N → (N : Int) ≤ size →
      parse_range_header ("bytes=-".toList ++ s) size = some (size - N, size - 1)) ∧
    ((N = 0 ∨ size < N) →
      parse_range_header ("bytes=-".toList ++ s) size = Option.none) := by
  have hopen : parse_range_header "bytes=0-".toList size
      = validateRange size (some (0, size - 1)) := rfl
  have hsuf := parse_range_header_suffix_form s size
  have hraw : rawRange [] s size = some (size - N, size - 1) := by
    match s, hs with
    | c :: rest, _ =>
      have hc : c.isDigit := hd c (List.mem_cons_self c rest)
      have hcm : ¬ c = '-' := by
        intro hcontra
        subst hcontra
        simp at hc
      have hcp : ¬ c = '+' := by
        intro hcontra
        subst hcontra
        simp at hc
      simp only [rawRange, pyInt, if_neg hcm, if_neg hcp, hv]
      rfl
  refine ⟨?_, ?_, ?_⟩
  · rw [hopen]
    simp only [validateRange]
    rw [if_neg (by omega)]
    rw [if_neg (by omega)]
  · intro hN1 hN2
    rw [hsuf, hraw]
    simp only [validateRange]
    rw [if_neg (by omega)]
    rw [if_neg (by omega)]
  · intro hN0
    rw [hsuf, hraw]
    simp only [validateRange]
    rw [if_pos (by omega)]

/-- Witness for the amended C3 at size 10 with the digit string `"3"`. -/
theorem open_and_suffix_range_forms_witness :
    parse_range_header "bytes=0-".toList 10 = some ((0 : Int), (10 : Int) - 1) ∧
    ((1 : Nat) ≤ 3 → ((3 : Nat) : Int) ≤ 10 →
      parse_range_header ("bytes=-".toList ++ "3".toList) 10 =
        some ((10 : Int) - ((3 : Nat) : Int), (10 : Int) - 1)) ∧
    (((3 : Nat) = 0 ∨ (10 : Int) < ((3 : Nat) : Int)) →
      parse_range_header ("bytes=-".toList ++ "3".toList) 10 = Option.none) :=
  open_and_suffix_range_forms 10 3 "3".toList (by decide) (by decide)
    (by decide) (by decide)

/-- Claim C8 (code bug): `stream_audio` passes the integer `lesson_id` as the
`audio_path` argument of `get_audio_file_path`, whose first action on a
truthy argument is audio_path.startswith("audio_files/"); on an `int` this
raises `AttributeError`, so every request for an existing lesson errors out
instead of returning the 200 streaming response — regardless of the
filesystem, the file content, and the (absent) `Range` header. -/
theorem stream_audio_attribute_error (lessonId : Int) (fs : List String)
    (content : List Nat) (rangeHeader : Option (List Char)) (h : lessonId ≠ 0) :
    stream_audio true lessonId fs content rangeHeader
      = Except.error PyExc.attributeError := by
  have hget : get_audio_file_path (PyVal.vInt lessonId) PyVal.vNone fs
      = Except.error PyExc.attributeError := by
    unfold get_audio_file_path
    rw [if_pos (by simp [pyTruthy, h])]
  unfold stream_audio
  rw [if_neg (by simp), hget]

/-- Witness for C8: lesson 1 exists and its backing file
`audio_files/lesson_1.mp3` is present, yet the endpoint raises
`AttributeError` (an HTTP 500) instead of streaming with status 200. -/
theorem stream_audio_attribute_error_witness :
    stream_audio true 1 ["audio_files/lesson_1.mp3"] [7, 7, 7] Option.none
      = Except.error PyExc.attributeError :=
  stream_audio_attribute_error 1 ["audio_files/lesson_1.mp3"] [7, 7, 7] Option.none
    (by decide)

/-- Auxiliary: RMS comparison of pairs with positive lengths is the rational
comparison of the cross products. -/
theorem rmsVal_le_iff (p q : Nat × Nat) (hp : 0 < p.2) (hq : 0 < q.2) :
    rmsVal p ≤ rmsVal q ↔ p.1 * q.2 ≤ q.1 * p.2 := by
  unfold rmsVal
  rw [div_le_div_iff (by exact_mod_cast hp) (by exact_mod_cast hq)]
  rw [← Nat.cast_mul, ← Nat.cast_mul, Nat.cast_le]

/-- Auxiliary: strict version of `rmsVal_le_iff`. -/
theorem rmsVal_lt_iff (p q : Nat × Nat) (hp : 0 < p.2) (hq : 0 < q.2) :
    rmsVal p < rmsVal q ↔ p.1 * q.2 < q.1 * p.2 := by
  unfold rmsVal
  rw [div_lt_div_iff (by exact_mod_cast hp) (by exact_mod_cast hq)]
  rw [← Nat.cast_mul, ← Nat.cast_mul, Nat.cast_lt]

/-- Auxiliary: the fold of `pickMax` returns its accumulator or a list
element. -/
theorem foldl_pickMax_mem :
    ∀ (t : List (Nat × Nat)) (acc : Nat × Nat),
      t.foldl pickMax acc = acc ∨ t.foldl pickMax acc ∈ t := by
  intro t
  induction t with
  | nil =>
    intro acc
    left
    rfl
  | cons q t ih =>
    intro acc
    rw [List.foldl_cons]
    rcases ih (pickMax acc q) with h | h
    · rw [h]
      unfold pickMax
      split
      · right
        exact List.mem_cons_self _ _
      · left
        rfl
    · right
      exact List.mem_cons_of_mem _ h

/-- Auxiliary: the fold of `pickMax` dominates its accumulator and every list
element (lengths positive). -/
theorem foldl_pickMax_ge :
    ∀ (t : List (Nat × Nat)) (acc : Nat × Nat), 0 < acc.2 → (∀ p ∈ t, 0 < p.2) →
      rmsVal acc ≤ rmsVal (t.foldl pickMax acc) ∧
      ∀ p ∈ t, rmsVal p ≤ rmsVal (t.foldl pickMax acc) := by
  intro t
  induction t with
  | nil =>
    intro acc ha _
    refine ⟨le_refl _, ?_⟩
    intro p hp
    simp at hp
  | cons q t ih =>
    intro acc ha hpos
    have hq : 0 < q.2 := hpos q (List.mem_cons_self _ _)
    have hrun : 0 < (pickMax acc q).2 := by
      unfold pickMax
      split
      · exact hq
      · exact ha
    obtain ⟨h1, h2⟩ := ih (pickMax acc q) hrun (fun p hp => hpos p (List.mem_cons_of_mem _ hp))
    have hacc_le : rmsVal acc ≤ rmsVal (pickMax acc q) := by
      unfold pickMax
      split
      · rename_i hc
        exact le_of_lt ((rmsVal_lt_iff acc q ha hq).mpr hc)
      · exact le_refl _
    have hq_le : rmsVal q ≤ rmsVal (pickMax acc q) := by
      unfold pickMax
      split
      · exact le_refl _
      · rename_i hc
        push_neg at hc
        exact (rmsVal_le_iff q acc hq ha).mpr hc
    rw [List.foldl_cons]
    refine ⟨hacc_le.trans h1, ?_⟩
    intro p hp
    rcases List.mem_cons.mp hp with rfl | hp
    · exact hq_le.trans h1
    · exact h2 p hp

/-- Auxiliary: specification of `pyMaxRms` on a nonempty list of pairs with
positive lengths: it returns an element dominating all elements. -/
theorem pyMaxRms_spec (l : List (Nat × Nat)) (hl : l ≠ []) (hpos : ∀ p ∈ l, 0 < p.2) :
    ∃ m, pyMaxRms l = some m ∧ m ∈ l ∧ ∀ p ∈ l, p.1 * m.2 ≤ m.1 * p.2 := by
  match l, hl with
  | h :: t, _ =>
    refine ⟨t.foldl pickMax h, rfl, ?_, ?_⟩
    · rcases foldl_pickMax_mem t h with he | he
      · rw [he]
        exact List.mem_cons_self _ _
      · exact List.mem_cons_of_mem _ he
    · have hh : 0 < h.2 := hpos h (List.mem_cons_self _ _)
      have ht : ∀ p ∈ t, 0 < p.2 := fun p hp => hpos p (List.mem_cons_of_mem _ hp)
      obtain ⟨h1, h2⟩ := foldl_pickMax_ge t h hh ht
      have hm2 : 0 < (t.foldl pickMax h).2 := by
        rcases foldl_pickMax_mem t h with he | he
        · rw [he]
          exact hh
        · exact ht _ he
      intro p hp
      rcases List.mem_cons.mp hp with rfl | hp
      · exact (rmsVal_le_iff p _ hh hm2).mp h1
      · exact (rmsVal_le_iff p _ (ht p hp) hm2).mp (h2 p hp)

/-- Auxiliary: the chunk size of the first pass is always at least 1. -/
theorem waveChunkSize_pos (dataLen s : Nat) : 0 < waveChunkSize dataLen s := by
  unfold waveChunkSize
  split
  · omega
  · rename_i h
    exact Nat.pos_of_ne_zero h

/-- Auxiliary: every pair recorded by the first pass has a positive chunk
length. -/
theorem rmsPairs_len_pos (data : List Int) (s : Nat) :
    ∀ p ∈ rmsPairs data s, 0 < p.2 := by
  intro p hp
  unfold rmsPairs at hp
  rw [List.mem_map] at hp
  obtain ⟨i, hi, hpe⟩ := hp
  have hpred := List.mem_takeWhile_imp hi
  simp only [decide_eq_true_eq] at hpred
  subst hpe
  simp only [List.length_take, List.length_drop]
  have := waveChunkSize_pos data.length s
  omega

/-- Auxiliary: length of the `takeWhile` of a strict upper-bound predicate
over `range'`. -/
theorem takeWhile_range'_lt_length (t : Nat) :
    ∀ (s k : Nat),
      ((List.range' k s).takeWhile (fun i => decide (i < t))).length = min s (t - k) := by
  intro s
  induction s with
  | zero =>
    intro k
    simp
  | succ s ih =>
    intro k
    rw [List.range'_succ, List.takeWhile_cons]
    by_cases hk : k < t
    · rw [if_pos (by simpa using hk)]
      simp only [List.length_cons, ih]
      omega
    · rw [if_neg (by simpa using hk)]
      simp only [List.length_nil]
      omega

/-- Auxiliary: the first pass produces `min s (number of PCM samples)`
chunks (for `s ≥ 1`): all `s` iterations when the data has at least `s`
samples, and one single-sample chunk per sample — the `break` hits early —
otherwise. -/
theorem rmsPairs_length (data : List Int) (s : Nat) (hs : 1 ≤ s) :
    (rmsPairs data s).length = min s data.length := by
  unfold rmsPairs
  rw [List.length_map]
  by_cases hcase : data.length < s
  · have hdiv : data.length / s = 0 := Nat.div_eq_of_lt hcase
    have hcs : waveChunkSize data.length s = 1 := by
      unfold waveChunkSize
      rw [if_pos hdiv]
    rw [hcs]
    have hfun : (fun i => decide (i * 1 < data.length))
        = (fun i => decide (i < data.length)) := by
      funext i
      rw [Nat.mul_one]
    rw [hfun, List.range_eq_range', takeWhile_range'_lt_length]
    omega
  · push_neg at hcase
    have hspos : 0 < s := hs
    have hcs1 : 0 < waveChunkSize data.length s := waveChunkSize_pos data.length s
    have hmul : waveChunkSize data.length s * s ≤ data.length := by
      unfold waveChunkSize
      split
      · rename_i h0
        rw [Nat.div_eq_zero_iff hspos] at h0
        omega
      · exact Nat.div_mul_le_self data.length s
    rw [List.takeWhile_eq_self_iff.mpr ?_]
    · rw [List.length_range]
      omega
    · intro i hi
      rw [List.mem_range] at hi
      have h1 : i * waveChunkSize data.length s < s * waveChunkSize data.length s :=
        (Nat.mul_lt_mul_right hcs1).mpr hi
      have h2 : s * waveChunkSize data.length s ≤ data.length := by
        rw [Nat.mul_comm]
        exact hmul
      simp only [decide_eq_true_eq]
      omega

/-- Auxiliary: the chunk whose RMS pair equals the maximum normalizes to
exactly `max_amplitude`: `int(max_rms / max_rms * amp) = amp`. -/
theorem floorAmpSqrtRatio_self (amp a b : Nat) (ha : a ≠ 0) (hb : 0 < b) :
    floorAmpSqrtRatio amp a b a b = amp := by
  unfold floorAmpSqrtRatio
  have h1 : amp ^ 2 * a * b * (b * a) = (amp * a * b) ^ 2 := by
    ring
  rw [h1, Nat.sqrt_eq']
  have h2 : amp * a * b = amp * (b * a) := by
    ring
  rw [h2]
  exact Nat.mul_div_cancel amp (Nat.mul_pos hb (Nat.pos_of_ne_zero ha))

/-- Auxiliary: the sum of squares over an all-zero chunk is zero. -/
theorem sumSq_eq_zero (chunk : List Int) (h : ∀ x ∈ chunk, x = 0) :
    sumSq chunk = 0 := by
  unfold sumSq
  have haux : ∀ (l : List Int), (∀ x ∈ l, x = 0) → ∀ acc : Nat,
      l.foldl (fun acc x => acc + x.natAbs ^ 2) acc = acc := by
    intro l
    induction l with
    | nil =>
      intro _ acc
      rfl
    | cons x t ih =>
      intro hz acc
      rw [List.foldl_cons]
      have hx : x = 0 := hz x (List.mem_cons_self _ _)
      subst hx
      simp only [Int.natAbs_zero]
      rw [show acc + 0 ^ 2 = acc by omega]
      exact ih (fun y hy => hz y (List.mem_cons_of_mem _ hy)) acc
  exact haux chunk h 0

/-- Auxiliary: on all-zero PCM data every recorded pair has a zero
sum of squares. -/
theorem rmsPairs_silent (data : List Int) (s : Nat) (h : ∀ x ∈ data, x = 0) :
    ∀ p ∈ rmsPairs data s, p.1 = 0 := by
  intro p hp
  unfold rmsPairs at hp
  rw [List.mem_map] at hp
  obtain ⟨i, _, hpe⟩ := hp
  subst hpe
  refine sumSq_eq_zero _ ?_
  intro x hx
  exact h x (List.drop_subset _ _ (List.take_subset _ _ hx))

/-- Claim C6 (code bug): on decode failure with a supplied sample count the
fallback returns the flat midpoint envelope `[50] * samples`, but with no
fixed sample count supplied the very same fallback evaluates `[50] * None`
and raises `TypeError`, which propagates to the caller. -/
theorem waveform_decode_failure_fallback :
    generate_waveform Option.none (some 20) 100 4 = Except.ok (List.replicate 20 50) ∧
    generate_waveform Option.none Option.none 100 4 = Except.error PyExc.typeError := by
  constructor
  · rfl
  · rfl

/-- Claim C5 counterexample: requesting 5 waveform points from a decodable
clip with only 3 PCM samples yields 3 points, not 5; and with no fixed count
a 2630 ms clip yields `max 10 (int(2630/1000 * 4)) = 10` points where the
claim, reading max 10 (round(2630/1000 * 4)) = 11, predicts 11. -/
theorem waveform_length_counterexample :
    generate_waveform (some ⟨3, [0, 0, 0]⟩) (some 5) 100 4 = Except.ok [1, 1, 1] ∧
    ([1, 1, 1] : List Nat).length ≠ 5 ∧
    generate_waveform (some ⟨2630, List.replicate 11 0⟩) Option.none 100 4
      = Except.ok (List.replicate 10 1) ∧
    ¬ ((List.replicate 10 (1 : Nat)).length : Int)
        = max 10 (round ((2630 * 4 : ℚ) / 1000)) := by
  refine ⟨rfl, by decide, rfl, ?_⟩
  rw [show ((2630 * 4 : ℚ) / 1000) = 263 / 25 by norm_num]
  rw [show round ((263 : ℚ) / 25) = 11 by norm_num [round_eq]]
  decide

/-- Claim C5 (amended): for a decodable clip, `generate_waveform` succeeds
and returns a sequence whose length is `min count pcm` where `count` is the
supplied fixed sample count (when given) or
`max 10 (int(duration_seconds * points_per_second))` (truncation, not
rounding) and `pcm` is the number of decoded PCM samples; every element lies
in `[1, max_amplitude]`; when some chunk is non-silent the chunk with the
greatest RMS maps to exactly `max_amplitude`; and an all-zero clip yields
all ones. -/
theorem waveform_extract_characterization (audio : AudioSeg) (samplesArg : Option Int)
    (maxAmp pps : Nat) (hamp : 1 ≤ maxAmp)
    (hn : ∀ n, samplesArg = some n → 1 ≤ n) :
    generate_waveform (some audio) samplesArg maxAmp pps
      = Except.ok (waveformOut audio samplesArg maxAmp pps) ∧
    (waveformOut audio samplesArg maxAmp pps).length
      = min (requestedCount audio samplesArg pps).toNat audio.data.length ∧
    (∀ x ∈ waveformOut audio samplesArg maxAmp pps, 1 ≤ x ∧ x ≤ maxAmp) ∧
    ((∃ p ∈ rmsPairs audio.data (requestedCount audio samplesArg pps).toNat, p.1 ≠ 0) →
      ∃ m ∈ rmsPairs audio.data (requestedCount audio samplesArg pps).toNat,
        (∀ p ∈ rmsPairs audio.data (requestedCount audio samplesArg pps).toNat,
          p.1 * m.2 ≤ m.1 * p.2) ∧
        normalizeRms maxAmp
          (maxRmsPair (rmsPairs audio.data (requestedCount audio samplesArg pps).toNat)) m
          = maxAmp ∧
        maxAmp ∈ waveformOut audio samplesArg maxAmp pps) ∧
    ((∀ x ∈ audio.data, x = 0) → ∀ x ∈ waveformOut audio samplesArg maxAmp pps, x = 1) := by
  have hsamp : 1 ≤ requestedCount audio samplesArg pps := by
    unfold requestedCount
    cases samplesArg with
    | none =>
      exact le_trans (by norm_num) (le_max_left 10 _)
    | some n =>
      exact hn n rfl
  refine ⟨?_, ?_, ?_, ?_, ?_⟩
  · simp only [generate_waveform]
    rw [if_neg (by omega)]
  · unfold waveformOut
    rw [List.length_map]
    exact rmsPairs_length _ _ (by omega)
  · intro x hx
    unfold waveformOut at hx
    rw [List.mem_map] at hx
    obtain ⟨p, _, hpe⟩ := hx
    subst hpe
    unfold normalizeRms
    omega
  · intro hex
    obtain ⟨p0, hp0, hp0ne⟩ := hex
    have hpos := rmsPairs_len_pos audio.data (requestedCount audio samplesArg pps).toNat
    have hne : rmsPairs audio.data (requestedCount audio samplesArg pps).toNat ≠ [] := by
      intro hnil
      rw [hnil] at hp0
      simp at hp0
    obtain ⟨m, hmax_eq, hm_mem, hm_ge⟩ := pyMaxRms_spec _ hne hpos
    have hm2 : 0 < m.2 := hpos m hm_mem
    have hm1 : m.1 ≠ 0 := by
      intro h0
      have hle := hm_ge p0 hp0
      rw [h0, Nat.zero_mul] at hle
      rcases Nat.mul_eq_zero.mp (Nat.le_zero.mp hle) with hcase | hcase
      · exact hp0ne hcase
      · omega
    have hMp : maxRmsPair (rmsPairs audio.data (requestedCount audio samplesArg pps).toNat)
        = m := by
      unfold maxRmsPair
      rw [hmax_eq]
      show (if m.1 = 0 then ((1 : Nat), (1 : Nat)) else m) = m
      rw [if_neg hm1]
    have hval : normalizeRms maxAmp
        (maxRmsPair (rmsPairs audio.data (requestedCount audio samplesArg pps).toNat)) m
        = maxAmp := by
      unfold normalizeRms
      rw [hMp, floorAmpSqrtRatio_self maxAmp m.1 m.2 hm1 hm2]
      omega
    refine ⟨m, hm_mem, hm_ge, hval, ?_⟩
    unfold waveformOut
    rw [List.mem_map]
    exact ⟨m, hm_mem, hval⟩
  · intro hz x hx
    unfold waveformOut at hx
    rw [List.mem_map] at hx
    obtain ⟨p, hp, hpe⟩ := hx
    subst hpe
    have hp1 : p.1 = 0 :=
      rmsPairs_silent audio.data (requestedCount audio samplesArg pps).toNat hz p hp
    unfold normalizeRms
    rw [hp1]
    have hzero : floorAmpSqrtRatio maxAmp 0
        p.2 (maxRmsPair (rmsPairs audio.data (requestedCount audio samplesArg pps).toNat)).1
        (maxRmsPair (rmsPairs audio.data (requestedCount audio samplesArg pps).toNat)).2
        = 0 := by
      unfold floorAmpSqrtRatio
      simp
    rw [hzero]
    omega

/-- Witness for the amended C5 on a 2-sample clip with PCM values 3 and -4,
two requested points, amplitude 100. -/
theorem waveform_extract_characterization_witness :
    generate_waveform (some ⟨500, [3, -4]⟩) (some 2) 100 4
      = Except.ok (waveformOut ⟨500, [3, -4]⟩ (some 2) 100 4) ∧
    (waveformOut ⟨500, [3, -4]⟩ (some 2) 100 4).length
      = min (requestedCount ⟨500, [3, -4]⟩ (some 2) 4).toNat ([3, -4] : List Int).length ∧
    (∀ x ∈ waveformOut ⟨500, [3, -4]⟩ (some 2) 100 4, 1 ≤ x ∧ x ≤ 100) ∧
    ((∃ p ∈ rmsPairs [3, -4] (requestedCount ⟨500, [3, -4]⟩ (some 2) 4).toNat, p.1 ≠ 0) →
      ∃ m ∈ rmsPairs [3, -4] (requestedCount ⟨500, [3, -4]⟩ (some 2) 4).toNat,
        (∀ p ∈ rmsPairs [3, -4] (requestedCount ⟨500, [3, -4]⟩ (some 2) 4).toNat,
          p.1 * m.2 ≤ m.1 * p.2) ∧
        normalizeRms 100
          (maxRmsPair (rmsPairs [3, -4] (requestedCount ⟨500, [3, -4]⟩ (some 2) 4).toNat)) m
          = 100 ∧
        100 ∈ waveformOut ⟨500, [3, -4]⟩ (some 2) 100 4) ∧
    ((∀ x ∈ ([3, -4] : List Int), x = 0) →
      ∀ x ∈ waveformOut ⟨500, [3, -4]⟩ (some 2) 100 4, x = 1) :=
  waveform_extract_characterization ⟨500, [3, -4]⟩ (some 2) 100 4 (by decide)
    (fun n h => by
      injection h with h2
      omega)

/-- Auxiliary: a path is gone after its own removal. -/
theorem not_mem_removeFile_self (l : List String) (p : String) :
    p ∉ removeFile l p := by
  unfold removeFile
  intro h
  rw [List.mem_filter] at h
  simp at h

/-- Auxiliary: removal never re-adds a path. -/
theorem not_mem_removeFile_of_not_mem (l : List String) (p q : String) (h : p ∉ l) :
    p ∉ removeFile l q := by
  unfold removeFile
  intro hc
  exact h (List.mem_filter.mp hc).1

/-- Claim C7: if transcoding or the duration probe fails during
`process_audio_file`, the failure is surfaced as an exception and afterwards
neither the file of the job under original/ nor its target under processed/
exists. -/
theorem process_cleanup_on_failure (fs : List String) (filename : String)
    (convertOk partlyWritten : Bool) (probeOut : Option Nat)
    (hfail : convertOk = false ∨ probeOut = Option.none) :
    (∃ e, (process_audio_file fs filename convertOk partlyWritten probeOut).result
        = Except.error e) ∧
    originalFullPath filename
      ∉ (process_audio_file fs filename convertOk partlyWritten probeOut).fs ∧
    processedFullPath filename
      ∉ (process_audio_file fs filename convertOk partlyWritten probeOut).fs := by
  unfold process_audio_file
  rcases hfail with hc | hp
  · subst hc
    simp only [Bool.false_eq_true, if_false]
    refine ⟨⟨PyExc.exc "Audio conversion failed", rfl⟩, ?_, ?_⟩
    · exact not_mem_removeFile_of_not_mem _ _ _ (not_mem_removeFile_self _ _)
    · exact not_mem_removeFile_self _ _
  · subst hp
    cases convertOk with
    | false =>
      simp only [Bool.false_eq_true, if_false]
      refine ⟨⟨PyExc.exc "Audio conversion failed", rfl⟩, ?_, ?_⟩
      · exact not_mem_removeFile_of_not_mem _ _ _ (not_mem_removeFile_self _ _)
      · exact not_mem_removeFile_self _ _
    | true =>
      simp only [if_true]
      refine ⟨⟨PyExc.exc "Failed to get audio duration", rfl⟩, ?_, ?_⟩
      · exact not_mem_removeFile_of_not_mem _ _ _ (not_mem_removeFile_self _ _)
      · exact not_mem_removeFile_self _ _

/-- Witness for C7: a failing transcode of `t.wav` over a filesystem that
already held both target paths. -/
theorem process_cleanup_on_failure_witness :
    (∃ e, (process_audio_file
        ["/app/audio_files/original/t.wav", "/app/audio_files/processed/t.mp3"]
        "t.wav" false true (some 7)).result = Except.error e) ∧
    originalFullPath "t.wav"
      ∉ (process_audio_file
        ["/app/audio_files/original/t.wav", "/app/audio_files/processed/t.mp3"]
        "t.wav" false true (some 7)).fs ∧
    processedFullPath "t.wav"
      ∉ (process_audio_file
        ["/app/audio_files/original/t.wav", "/app/audio_files/processed/t.mp3"]
        "t.wav" false true (some 7)).fs :=
  process_cleanup_on_failure
    ["/app/audio_files/original/t.wav", "/app/audio_files/processed/t.mp3"]
    "t.wav" false true (some 7) (Or.inl rfl)

/-- Auxiliary: when the whole payload fits under the cap, the receive loop
reads and writes it all and succeeds. -/
theorem recvLoop_ok :
    ∀ (fuel remaining fileSize written : Nat), remaining ≤ fuel →
      fileSize + remaining ≤ maxFileSize →
      recvLoop fuel remaining fileSize written =
        { outcome := Except.ok (), fileSize := fileSize + remaining,
          written := written + remaining, tempRemoved := false } := by
  intro fuel
  induction fuel with
  | zero =>
    intro remaining fileSize written hle _
    have h0 : remaining = 0 := by omega
    subst h0
    simp [recvLoop]
  | succ fuel ih =>
    intro remaining fileSize written hle hcap
    rw [recvLoop]
    by_cases h0 : min uploadChunkSize remaining = 0
    · have hr0 : remaining = 0 := by
        have : 0 < uploadChunkSize := by decide
        omega
      subst hr0
      rw [if_pos h0]
      simp
    · rw [if_neg h0]
      have hchunk : min uploadChunkSize remaining ≤ remaining := Nat.min_le_right _ _
      rw [if_neg (by omega)]
      rw [ih (remaining - min uploadChunkSize remaining)
        (fileSize + min uploadChunkSize remaining)
        (written + min uploadChunkSize remaining) (by omega) (by omega)]
      have he1 : fileSize + min uploadChunkSize remaining
          + (remaining - min uploadChunkSize remaining) = fileSize + remaining := by
        omega
      have he2 : written + min uploadChunkSize remaining
          + (remaining - min uploadChunkSize remaining) = written + remaining := by
        omega
      rw [he1, he2]

/-- Auxiliary: when the payload crosses the cap, the receive loop stops at
the first crossing 1 MiB chunk: it raises the 413 `HTTPException`, has
removed the temp file, has written at most the cap, and has read at most one
chunk past the cap. -/
theorem recvLoop_over :
    ∀ (fuel remaining fileSize written : Nat), remaining ≤ fuel →
      fileSize ≤ maxFileSize → written = fileSize →
      maxFileSize < fileSize + remaining →
      (recvLoop fuel remaining fileSize written).outcome
        = Except.error (PyExc.httpException 413
            "File too large. Maximum size is 200 MB") ∧
      (recvLoop fuel remaining fileSize written).tempRemoved = true ∧
      (recvLoop fuel remaining fileSize written).written ≤ maxFileSize ∧
      (recvLoop fuel remaining fileSize written).fileSize
        ≤ maxFileSize + uploadChunkSize := by
  intro fuel
  induction fuel with
  | zero =>
    intro remaining fileSize written hle _ _ hover
    omega
  | succ fuel ih =>
    intro remaining fileSize written hle hcap hw hover
    rw [recvLoop]
    have hc : 0 < uploadChunkSize := by decide
    by_cases h0 : min uploadChunkSize remaining = 0
    · omega
    · rw [if_neg h0]
      have hchunk1 : min uploadChunkSize remaining ≤ remaining := Nat.min_le_right _ _
      have hchunk2 : min uploadChunkSize remaining ≤ uploadChunkSize := Nat.min_le_left _ _
      by_cases hcross : fileSize + min uploadChunkSize remaining > maxFileSize
      · rw [if_pos hcross]
        refine ⟨rfl, rfl, ?_, ?_⟩
        · show written ≤ maxFileSize
          omega
        · show fileSize + min uploadChunkSize remaining ≤ maxFileSize + uploadChunkSize
          omega
      · rw [if_neg hcross]
        exact ih (remaining - min uploadChunkSize remaining)
          (fileSize + min uploadChunkSize remaining)
          (written + min uploadChunkSize remaining)
          (by omega) (by omega) (by omega) (by omega)

/-- Auxiliary: the receive phase of an under-cap upload succeeds with the
whole payload buffered. -/
theorem recvUpload_ok (total : Nat) (h : total ≤ maxFileSize) :
    recvUpload total =
      { outcome := Except.ok (), fileSize := total, written := total,
        tempRemoved := false } := by
  unfold recvUpload
  rw [recvLoop_ok total total 0 0 (le_refl total) (by omega)]
  simp

/-- Auxiliary: the receive phase of an over-cap upload surfaces the 413
converted into a 500 by the blanket `except Exception` handler, with the
temp file removed and reading stopped at the first crossing chunk. -/
theorem recvUpload_over (total : Nat) (h : maxFileSize < total) :
    (recvUpload total).outcome
      = Except.error (PyExc.httpException 500
          ("Error uploading file: "
            ++ pyStrExc (PyExc.httpException 413
              "File too large. Maximum size is 200 MB"))) ∧
    (recvUpload total).tempRemoved = true ∧
    (recvUpload total).written ≤ maxFileSize ∧
    (recvUpload total).fileSize ≤ maxFileSize + uploadChunkSize := by
  obtain ⟨h1, h2, h3, h4⟩ :=
    recvLoop_over total total 0 0 (le_refl total) (by decide) rfl (by omega)
  unfold recvUpload
  dsimp only
  rw [h1]
  exact ⟨rfl, rfl, h3, h4⟩

/-- Claim C4 (code bug): an upload whose payload exceeds the 200 MiB cap
stops reading at the first 1 MiB chunk that crosses the cap (at most the cap
is ever written, at most one chunk past it is read), the temp file is
removed — but the client receives HTTP 500, not 413: the
`raise HTTPException(413)` inside the `try` block is caught by its own
`except Exception` clause and re-raised as
`HTTPException(500, "Error uploading file: 413: ...")`. -/
theorem upload_over_cap_aborts_with_500 (fs : List String) (a : UploadArgs)
    (hex : a.lessonExists = true) (hover : maxFileSize < a.totalSize) :
    (upload_lesson_audio fs a).response
      = Except.error (PyExc.httpException 500
          "Error uploading file: 413: File too large. Maximum size is 200 MB") ∧
    (upload_lesson_audio fs a).tempRemoved = true ∧
    (upload_lesson_audio fs a).fs = fs ∧
    (upload_lesson_audio fs a).bytesWritten ≤ maxFileSize ∧
    (upload_lesson_audio fs a).bytesRead ≤ maxFileSize + uploadChunkSize := by
  obtain ⟨h1, h2, h3, h4⟩ := recvUpload_over a.totalSize hover
  have hmsg : ("Error uploading file: "
      ++ pyStrExc (PyExc.httpException 413 "File too large. Maximum size is 200 MB"))
      = "Error uploading file: 413: File too large. Maximum size is 200 MB" := rfl
  unfold upload_lesson_audio
  rw [if_neg (by simp [hex])]
  dsimp only
  rw [h1]
  rw [hmsg] at h1
  exact ⟨by rw [hmsg], h2, rfl, h3, h4⟩

/-- Witness for C4 at a payload one byte over the cap. -/
theorem upload_over_cap_aborts_with_500_witness :
    (upload_lesson_audio []
        ⟨1, true, Option.none, Option.none, "t.wav", maxFileSize + 1, true, false, some 7⟩).response
      = Except.error (PyExc.httpException 500
          "Error uploading file: 413: File too large. Maximum size is 200 MB") ∧
    (upload_lesson_audio []
        ⟨1, true, Option.none, Option.none, "t.wav", maxFileSize + 1, true, false, some 7⟩).tempRemoved
      = true ∧
    (upload_lesson_audio []
        ⟨1, true, Option.none, Option.none, "t.wav", maxFileSize + 1, true, false, some 7⟩).fs
      = [] ∧
    (upload_lesson_audio []
        ⟨1, true, Option.none, Option.none, "t.wav", maxFileSize + 1, true, false, some 7⟩).bytesWritten
      ≤ maxFileSize ∧
    (upload_lesson_audio []
        ⟨1, true, Option.none, Option.none, "t.wav", maxFileSize + 1, true, false, some 7⟩).bytesRead
      ≤ maxFileSize + uploadChunkSize :=
  upload_over_cap_aborts_with_500 []
    ⟨1, true, Option.none, Option.none, "t.wav", maxFileSize + 1, true, false, some 7⟩
    rfl (by show maxFileSize < maxFileSize + 1; omega)

/-- Claim C9: in the upload/replace flow, the previously stored
original and processed files are deleted strictly before the new transcode
is attempted: the filesystem handed to `process_audio_file` no longer
contains either old artifact, and (for any upload that reaches the
processing phase) `upload_lesson_audio` runs `process_audio_file` on exactly
that delete-first filesystem. -/
theorem old_artifacts_deleted_before_transcode (fs : List String) (a : UploadArgs)
    (o p : String) (ho : a.lessonOriginalPath = some o) (ho2 : o ≠ "")
    (hp : a.lessonAudioPath = some p) (hp2 : p ≠ "") :
    (audioBaseDir ++ "/" ++ o) ∉ fsAtTranscode fs a ∧
    (audioBaseDir ++ "/" ++ p) ∉ fsAtTranscode fs a ∧
    (a.lessonExists = true → a.totalSize ≤ maxFileSize →
      (upload_lesson_audio fs a).fs
        = (process_audio_file (fsAtTranscode fs a) a.filename a.convertOk
            a.partlyWritten a.probeOut).fs) := by
  have htr : optTruthy a.lessonOriginalPath = true := by
    rw [ho]
    simpa [optTruthy] using ho2
  have hdel : fsAtTranscode fs a = delete_audio_files fs a.lessonOriginalPath a.lessonAudioPath := by
    unfold fsAtTranscode
    rw [if_pos (by rw [htr]; rfl)]
  have hshape : delete_audio_files fs a.lessonOriginalPath a.lessonAudioPath
      = removeFile (removeFile fs (audioBaseDir ++ "/" ++ o)) (audioBaseDir ++ "/" ++ p) := by
    unfold delete_audio_files
    rw [ho, hp]
    dsimp only
    rw [if_pos ho2, if_pos hp2]
  refine ⟨?_, ?_, ?_⟩
  · rw [hdel, hshape]
    exact not_mem_removeFile_of_not_mem _ _ _ (not_mem_removeFile_self _ _)
  · rw [hdel, hshape]
    exact not_mem_removeFile_self _ _
  · intro hex hcap
    unfold upload_lesson_audio
    rw [if_neg (by simp [hex])]
    dsimp only
    rw [recvUpload_ok a.totalSize hcap]
    dsimp only
    rcases hres : (process_audio_file (fsAtTranscode fs a) a.filename a.convertOk
        a.partlyWritten a.probeOut).result with e | v
    · rfl
    · obtain ⟨o1, p1, d1⟩ := v
      rfl

/-- Witness for C9: a lesson with stored paths `original/a.wav` and
`processed/a.mp3` over a filesystem holding both. -/
theorem old_artifacts_deleted_before_transcode_witness :
    ("/app/audio_files" ++ "/" ++ "original/a.wav")
      ∉ fsAtTranscode
        ["/app/audio_files/original/a.wav", "/app/audio_files/processed/a.mp3"]
        ⟨1, true, some "original/a.wav", some "processed/a.mp3", "b.wav", 5, true, false,
          some 7⟩ ∧
    ("/app/audio_files" ++ "/" ++ "processed/a.mp3")
      ∉ fsAtTranscode
        ["/app/audio_files/original/a.wav", "/app/audio_files/processed/a.mp3"]
        ⟨1, true, some "original/a.wav", some "processed/a.mp3", "b.wav", 5, true, false,
          some 7⟩ ∧
    ((⟨1, true, some "original/a.wav", some "processed/a.mp3", "b.wav", 5, true, false,
          some 7⟩ : UploadArgs).lessonExists = true →
      (⟨1, true, some "original/a.wav", some "processed/a.mp3", "b.wav", 5, true, false,
          some 7⟩ : UploadArgs).totalSize ≤ maxFileSize →
      (upload_lesson_audio
        ["/app/audio_files/original/a.wav", "/app/audio_files/processed/a.mp3"]
        ⟨1, true, some "original/a.wav", some "processed/a.mp3", "b.wav", 5, true, false,
          some 7⟩).fs
        = (process_audio_file
            (fsAtTranscode
              ["/app/audio_files/original/a.wav", "/app/audio_files/processed/a.mp3"]
              ⟨1, true, some "original/a.wav", some "processed/a.mp3", "b.wav", 5, true,
                false, some 7⟩)
            "b.wav" true false (some 7)).fs) :=
  old_artifacts_deleted_before_transcode
    ["/app/audio_files/original/a.wav", "/app/audio_files/processed/a.mp3"]
    ⟨1, true, some "original/a.wav", some "processed/a.mp3", "b.wav", 5, true, false, some 7⟩
    "original/a.wav" "processed/a.mp3" rfl (by decide) rfl (by decide)

/-- Claim C10: the replace endpoint delegates unchanged to the upload
endpoint — for every filesystem and argument record the two handlers agree
on the response, the filesystem effect, the temp-file state, the bytes read
and written, and the lesson-record update. -/
theorem replace_equals_upload (fs : List String) (a : UploadArgs) :
    (replace_lesson_audio fs a).response = (upload_lesson_audio fs a).response ∧
    (replace_lesson_audio fs a).fs = (upload_lesson_audio fs a).fs ∧
    (replace_lesson_audio fs a).tempRemoved = (upload_lesson_audio fs a).tempRemoved ∧
    (replace_lesson_audio fs a).bytesRead = (upload_lesson_audio fs a).bytesRead ∧
    (replace_lesson_audio fs a).bytesWritten = (upload_lesson_audio fs a).bytesWritten ∧
    (replace_lesson_audio fs a).dbUpdate = (upload_lesson_audio fs a).dbUpdate :=
  ⟨rfl, rfl, rfl, rfl, rfl, rfl⟩
